import Mathlib

/-!
Shallow embedding of `scripts/pair/svm.py` (autoperf repository).

The script walks, for each selected configuration, the cells of a pivot
table of normalized runtimes; each cell (A, B) is classified "Y" when the
normalized runtime exceeds the cutoff 1.15 and "N" otherwise.  For each
cell it looks at the pair directory `<root>/<config>/<A>_vs_<B>`: if the
`completed` marker is absent the pair is skipped with a log message; if
the marker is present but the feature-matrix file
`matrix_X_uncore_shared.csv` is absent the process exits with code 1; and
otherwise the matrix rows are appended to the accumulator `X` while the
label is replicated once per row onto the accumulator `Y`.  At the end the
label series is attached as column `Y` and the result written as a CSV
(header row, no index column) to `<root>/wekka_xy_L3-SMT_uncore_shared.csv`.

Modelling decisions:
* Normalized runtimes are modelled as rationals (the script only compares
  them against the constant cutoff, an order-compatible operation).
* A dataframe is a header (list of column names) plus a list of rows of
  cell texts; the script never computes with feature values, it only
  concatenates and serializes them, so cells stay strings.
* The filesystem is a total function from a pair directory path to that
  directory's state: whether the `completed` marker exists, and the
  contents of the feature-matrix file when it exists.
* `pd.concat` of the accumulator with a loaded matrix appends the rows;
  as the spec notes, an identical column schema across per-pair files is
  an implicit precondition, and `dfConcat` models concatenation under
  that assumption (the empty initial accumulator adopts the first
  dataframe's header).
* `sys.exit(1)` is modelled by an `Except` error carrying the state at
  the point of termination; no output file is written on that path.
-/

namespace AutoperfSvm

/-- A pandas dataframe as the script uses it: a header row of column
names and a list of data rows (cell texts). -/
structure DataFrame where
  header : List String
  rows : List (List String)
deriving DecidableEq, Repr

/-- The on-disk state of one pair directory `<root>/<config>/<A>_vs_<B>`:
whether the `completed` marker file exists, and the parsed contents of
`matrix_X_uncore_shared.csv` (`none` when the file is absent). -/
structure PairDir where
  completed : Bool
  matrix : Option DataFrame
deriving DecidableEq, Repr

/-- The filesystem seen by the script: each pair directory path is mapped
to its state. -/
def FileSystem : Type := String → PairDir

/-- One pivot table produced upstream by `get_runtime_pivot_tables`:
column workload names, and rows as (row workload name, cell values in
column order). -/
structure PivotTable where
  cols : List String
  rows : List (String × List ℚ)
deriving DecidableEq, Repr

/-- `MATRIX_FILE = 'matrix_X_uncore_shared.csv'` (svm.py line 28). -/
def MATRIX_FILE : String := "matrix_X_uncore_shared.csv"

/-- `TO_BUILD = ['L3-SMT']` (svm.py line 29). -/
def TO_BUILD : List String := ["L3-SMT"]

/-- `CLASSIFIER_CUTOFF = 1.15` (svm.py line 30). -/
def CLASSIFIER_CUTOFF : ℚ := 1.15

/-- `classification = 'Y' if normalized_runtime > CLASSIFIER_CUTOFF else 'N'`
(svm.py line 43). -/
def classification (normalized_runtime : ℚ) : String :=
  if normalized_runtime > CLASSIFIER_CUTOFF then "Y" else "N"

/-- One visited pivot-table cell: the configuration, row workload `A`,
column workload `B`, and the cell's normalized runtime. -/
structure Cell where
  config : String
  A : String
  B : String
  v : ℚ
deriving DecidableEq, Repr

/-- `os.path.join(sys.argv[1], config, "{}_vs_{}".format(A, B))`
(svm.py line 44). -/
def cellPath (root : String) (c : Cell) : String :=
  root ++ "/" ++ c.config ++ "/" ++ c.A ++ "_vs_" ++ c.B

/-- The cells of one pivot table in visiting order: rows `A` in table
order (`table.iterrows()`), and within a row the values paired with the
column names by position (`enumerate(values)` with `B = table.columns[i]`,
svm.py lines 39-41). -/
def tableCells (config : String) (t : PivotTable) : List Cell :=
  t.rows.flatMap (fun r => (r.2.zip t.cols).map (fun p => ⟨config, r.1, p.2, p.1⟩))

/-- All cells the main loop visits, in order: for each
`(config, table)` pair produced upstream, the table's cells when
`config in TO_BUILD`, nothing otherwise (svm.py lines 37-41). -/
def selectedCells (tables : List (String × PivotTable)) : List Cell :=
  tables.flatMap (fun ct => if ct.1 ∈ TO_BUILD then tableCells ct.1 ct.2 else [])

/-- The accumulator state of the main loop: the growing feature matrix
`X`, the growing label series `Y`, and the lines printed so far. -/
structure SvmState where
  X : DataFrame
  Y : List String
  log : List String
deriving DecidableEq, Repr

/-- The empty dataframe `pd.DataFrame()` (svm.py line 32). -/
def emptyDF : DataFrame := ⟨[], []⟩

/-- `X = pd.DataFrame(); Y = pd.Series()` (svm.py lines 32-33), with an
empty log. -/
def initState : SvmState := ⟨emptyDF, [], []⟩

/-- `pd.concat([a, b])` under the identical-schema precondition the spec
states for the per-pair feature files: the empty initial accumulator
adopts `b` wholesale, otherwise the rows are appended. -/
def dfConcat (a b : DataFrame) : DataFrame :=
  if a.header = [] ∧ a.rows = [] then b else ⟨a.header, a.rows ++ b.rows⟩

/-- The body of the innermost loop for one cell (svm.py lines 43-56):
classify the cell, look at the pair directory; on a missing `completed`
marker log the exclusion; on `completed` without a matrix file terminate
(`sys.exit(1)`, modelled as `.error`); otherwise append the matrix rows
to `X` and one copy of the label per row to `Y`. -/
def processCell (fs : FileSystem) (root : String) (c : Cell) (s : SvmState) :
    Except SvmState SvmState :=
  let results_path := cellPath root c
  let d := fs results_path
  if d.completed then
    match d.matrix with
    | none =>
        .error ⟨s.X, s.Y,
          s.log ++ ["No matrix file found, run the scripts/pair/matrix.py script first!"]⟩
    | some df =>
        .ok ⟨dfConcat s.X df,
          s.Y ++ List.replicate df.rows.length (classification c.v),
          s.log⟩
  else
    .ok ⟨s.X, s.Y, s.log ++ ["Exclude unfinished directory " ++ results_path]⟩

/-- The main loop over the visited cells, threading the accumulator;
`sys.exit(1)` short-circuits the whole loop. -/
def runCells (fs : FileSystem) (root : String) : List Cell → SvmState → Except SvmState SvmState
  | [], s => .ok s
  | c :: cs, s =>
    match processCell fs root c s with
    | .error e => .error e
    | .ok s2 => runCells fs root cs s2

/-- The whole accumulation phase of `__main__` (svm.py lines 32-56):
run the loop over every selected cell starting from the empty state. -/
def runSvm (fs : FileSystem) (root : String) (tables : List (String × PivotTable)) :
    Except SvmState SvmState :=
  runCells fs root (selectedCells tables) initState

/-- `X['Y'] = Y` (svm.py line 58): attach the label series as the last
column, named `Y`.  The accumulated index of `Y` is identical to the
index of `X` (both are concatenations of ranges of the same per-pair
lengths), so pandas takes the values positionally. -/
def addLabelColumn (X : DataFrame) (Y : List String) : DataFrame :=
  ⟨X.header ++ ["Y"], (X.rows.zip Y).map (fun rl => rl.1 ++ [rl.2])⟩

/-- One CSV line: the cells joined by commas. -/
def csvLine (cells : List String) : String := String.intercalate ("," ) cells

/-- `df.to_csv(..., index=False)`: the header line followed by one line
per row, no index column, each line terminated by a newline. -/
def to_csv_noindex (df : DataFrame) : String :=
  String.intercalate ("\n" ) (csvLine df.header :: df.rows.map csvLine) ++ "\n"

/-- The fixed output path
`os.path.join(sys.argv[1], 'wekka_xy_L3-SMT_uncore_shared.csv')`
(svm.py line 60). -/
def OUTPUT_FILE (root : String) : String := root ++ "/wekka_xy_L3-SMT_uncore_shared.csv"

/-- The observable outcome of one run: the exit code, the file written
(path and bytes, `none` when the process terminated before writing), the
shape `X.shape` printed before writing (`none` on the error path), and
the log lines. -/
structure Outcome where
  exitCode : Nat
  written : Option (String × String)
  shape : Option (Nat × Nat)
  log : List String
deriving DecidableEq, Repr

/-- The whole `__main__` (svm.py lines 32-60): accumulate, and on normal
completion attach the label column, print the shape and write the CSV;
on `sys.exit(1)` stop with exit code 1 and no file written. -/
def runMain (fs : FileSystem) (root : String) (tables : List (String × PivotTable)) : Outcome :=
  match runSvm fs root tables with
  | .error s => ⟨1, none, none, s.log⟩
  | .ok s =>
    let final := addLabelColumn s.X s.Y
    ⟨0, some (OUTPUT_FILE root, to_csv_noindex final),
      some (final.rows.length, final.header.length), s.log⟩

/-- `add_to_classifier` (svm.py lines 13-16): both parameters are rebound
to `None` and the pair of `None`s returned; the rebinding is local, so
the function is pure and ignores its arguments. -/
def add_to_classifier {α β : Type} (X : α) (Y : β) : Option α × Option β :=
  let X2 : Option α := none
  let Y2 : Option β := none
  (X2, Y2)

/-- Whether a visited cell's pair directory carries the `completed`
marker, i.e. whether the pair is included in the combined matrix. -/
def included (fs : FileSystem) (root : String) (c : Cell) : Bool :=
  (fs (cellPath root c)).completed

/-- The included (completed) cells of a visiting list, in order. -/
def includedCells (fs : FileSystem) (root : String) (cells : List Cell) : List Cell :=
  cells.filter (included fs root)

/-- The feature matrix of a cell's pair directory (the empty dataframe
stands in when the file is absent; it is only read on included cells
whose file exists). -/
def cellMatrix (fs : FileSystem) (root : String) (c : Cell) : DataFrame :=
  ((fs (cellPath root c)).matrix).getD emptyDF

/-- The feature rows a cell contributes. -/
def rowsOf (fs : FileSystem) (root : String) (c : Cell) : List (List String) :=
  (cellMatrix fs root c).rows

/-- The label entries a cell contributes: its own label, once per row of
its feature matrix. -/
def labelsOf (fs : FileSystem) (root : String) (c : Cell) : List String :=
  List.replicate (cellMatrix fs root c).rows.length (classification c.v)

/-- The labeled rows a cell contributes to the final matrix: each of its
feature rows with the cell's own label appended. -/
def labeledRowsOf (fs : FileSystem) (root : String) (c : Cell) : List (List String) :=
  (cellMatrix fs root c).rows.map (fun r => r ++ [classification c.v])

/-! ### Helper lemmas -/

theorem dfConcat_rows (a b : DataFrame) : (dfConcat a b).rows = a.rows ++ b.rows := by
  unfold dfConcat
  split
  · rename_i h
    rw [h.2]
    rfl
  · rfl

theorem runCells_ok_spec (fs : FileSystem) (root : String) (cells : List Cell) :
    ∀ (s s' : SvmState), runCells fs root cells s = .ok s' →
      s'.X.rows = s.X.rows ++ (includedCells fs root cells).flatMap (rowsOf fs root) ∧
      s'.Y = s.Y ++ (includedCells fs root cells).flatMap (labelsOf fs root) := by
  induction cells with
  | nil =>
    intro s s' h
    simp only [runCells, Except.ok.injEq] at h
    subst h
    simp [includedCells]
  | cons c cs ih =>
    intro s s' h
    by_cases hcomp : (fs (cellPath root c)).completed = true
    · cases hmat : (fs (cellPath root c)).matrix with
      | none =>
        simp [runCells, processCell, hcomp, hmat] at h
      | some df =>
        simp only [runCells, processCell, hcomp, hmat, if_true] at h
        have spec := ih _ s' h
        have hcell : cellMatrix fs root c = df := by simp [cellMatrix, hmat]
        have hinc : includedCells fs root (c :: cs) = c :: includedCells fs root cs := by
          simp [includedCells, List.filter_cons, included, hcomp]
        rw [hinc, List.flatMap_cons, List.flatMap_cons]
        constructor
        · rw [spec.1, dfConcat_rows, rowsOf, hcell, List.append_assoc]
        · rw [spec.2, labelsOf, hcell, List.append_assoc]
    · simp only [runCells, processCell, hcomp, if_false, Bool.false_eq_true] at h
      have spec := ih _ s' h
      have hinc : includedCells fs root (c :: cs) = includedCells fs root cs := by
        simp [includedCells, List.filter_cons, included, hcomp]
      rw [hinc]
      exact spec

theorem runCells_error_of_bad (fs : FileSystem) (root : String) (cells : List Cell) :
    ∀ (s : SvmState),
      (∃ c ∈ cells, (fs (cellPath root c)).completed = true ∧
        (fs (cellPath root c)).matrix = none) →
      ∃ e, runCells fs root cells s = .error e := by
  induction cells with
  | nil =>
    intro s h
    simp at h
  | cons c cs ih =>
    intro s h
    by_cases hcomp : (fs (cellPath root c)).completed = true
    · cases hmat : (fs (cellPath root c)).matrix with
      | none =>
        refine ⟨⟨s.X, s.Y,
          s.log ++ ["No matrix file found, run the scripts/pair/matrix.py script first!"]⟩, ?_⟩
        simp [runCells, processCell, hcomp, hmat]
      | some df =>
        obtain ⟨c0, hc0mem, hc0⟩ := h
        rcases List.mem_cons.mp hc0mem with rfl | hmem
        · rw [hmat] at hc0
          exact absurd hc0.2 (by simp)
        · obtain ⟨e, he⟩ :=
            ih ⟨dfConcat s.X df, s.Y ++ List.replicate df.rows.length (classification c.v),
              s.log⟩ ⟨c0, hmem, hc0⟩
          exact ⟨e, by simp [runCells, processCell, hcomp, hmat, he]⟩
    · obtain ⟨c0, hc0mem, hc0⟩ := h
      rcases List.mem_cons.mp hc0mem with rfl | hmem
      · exact absurd hc0.1 hcomp
      · obtain ⟨e, he⟩ :=
          ih ⟨s.X, s.Y, s.log ++ ["Exclude unfinished directory " ++ cellPath root c]⟩
            ⟨c0, hmem, hc0⟩
        exact ⟨e, by simp [runCells, processCell, hcomp, he]⟩

theorem runCells_all_unfinished (fs : FileSystem) (root : String) (cells : List Cell) :
    ∀ (s : SvmState),
      (∀ c ∈ cells, (fs (cellPath root c)).completed = false) →
      ∃ lg, runCells fs root cells s = .ok ⟨s.X, s.Y, s.log ++ lg⟩ := by
  induction cells with
  | nil =>
    intro s _
    exact ⟨[], by simp [runCells]⟩
  | cons c cs ih =>
    intro s h
    have hc : (fs (cellPath root c)).completed = false := h c (by simp)
    obtain ⟨lg, hrec⟩ :=
      ih ⟨s.X, s.Y, s.log ++ ["Exclude unfinished directory " ++ cellPath root c]⟩
        (fun d hd => h d (by simp [hd]))
    refine ⟨["Exclude unfinished directory " ++ cellPath root c] ++ lg, ?_⟩
    simp only [runCells, processCell, hc, if_false, Bool.false_eq_true]
    rw [hrec, ← List.append_assoc]

theorem zip_replicate_label (l : String) (rs : List (List String)) :
    (rs.zip (List.replicate rs.length l)).map (fun rl => rl.1 ++ [rl.2]) =
      rs.map (fun r => r ++ [l]) := by
  induction rs with
  | nil => rfl
  | cons r rs ih => simp [List.replicate_succ, ih]

theorem zip_flatMap_labeled (fs : FileSystem) (root : String) (L : List Cell) :
    ((L.flatMap (rowsOf fs root)).zip (L.flatMap (labelsOf fs root))).map
        (fun rl => rl.1 ++ [rl.2]) =
      L.flatMap (labeledRowsOf fs root) := by
  induction L with
  | nil => rfl
  | cons c L ih =>
    rw [List.flatMap_cons, List.flatMap_cons, List.flatMap_cons,
      List.zip_append (by simp [rowsOf, labelsOf]), List.map_append, ih]
    congr 1
    simpa [labelsOf, labeledRowsOf, rowsOf] using
      zip_replicate_label (classification c.v) (rowsOf fs root c)

theorem mem_labels_YN (fs : FileSystem) (root : String) (L : List Cell) (l : String)
    (h : l ∈ L.flatMap (labelsOf fs root)) : l = "Y" ∨ l = "N" := by
  obtain ⟨c, _, hmem⟩ := List.mem_flatMap.mp h
  simp only [labelsOf] at hmem
  have hl := (List.mem_replicate.mp hmem).2
  subst hl
  unfold classification
  split
  · exact Or.inl rfl
  · exact Or.inr rfl

/-! ### A concrete scenario (the spec's end-to-end example)

Configuration `L3-SMT`, row workload `wA`; cell (wA, wB) = 1.30 with a
completed pair directory of 4 feature rows, cell (wA, wC) = 1.00 with a
completed pair directory of 3 feature rows, cell (wA, wD) = 1.20 with an
unfinished pair directory. -/

def dfWB : DataFrame := ⟨["f1", "f2"], [["1", "2"], ["3", "4"], ["5", "6"], ["7", "8"]]⟩

def dfWC : DataFrame := ⟨["f1", "f2"], [["9", "10"], ["11", "12"], ["13", "14"]]⟩

def exTables : List (String × PivotTable) :=
  [("L3-SMT", ⟨["wB", "wC", "wD"], [("wA", [1.30, 1.00, 1.20])]⟩)]

def exFS : FileSystem := fun p =>
  if p = "res/L3-SMT/wA_vs_wB" then ⟨true, some dfWB⟩
  else if p = "res/L3-SMT/wA_vs_wC" then ⟨true, some dfWC⟩
  else ⟨false, none⟩

/-- The final accumulator state `runSvm` reaches on the concrete
scenario: the 4 rows of the first pair followed by the 3 rows of the
second, labels `Y` four times then `N` three times, and the exclusion
message for the unfinished third pair. -/
def exOkState : SvmState :=
  ⟨⟨["f1", "f2"],
    [["1", "2"], ["3", "4"], ["5", "6"], ["7", "8"], ["9", "10"], ["11", "12"], ["13", "14"]]⟩,
    ["Y", "Y", "Y", "Y", "N", "N", "N"],
    ["Exclude unfinished directory res/L3-SMT/wA_vs_wD"]⟩

/-- A filesystem whose (wA, wB) pair directory carries the `completed`
marker but no feature-matrix file. -/
def exFSbad : FileSystem := fun p =>
  if p = "res/L3-SMT/wA_vs_wB" then ⟨true, none⟩ else ⟨false, none⟩

/-- A filesystem where no pair directory carries the `completed` marker. -/
def exFSnone : FileSystem := fun _ => ⟨false, none⟩

/-! ### The claims -/

/-- C1: for every normalized-runtime value `v` read from a selected
configuration's pivot table, the derived label is `"Y"` if and only if
`v > 1.15`, and `"N"` otherwise; in particular `v = 1.15` yields `"N"`. -/
theorem C1_classification_cutoff :
    (∀ v : ℚ, (classification v = "Y" ↔ v > 1.15) ∧
      (classification v = "N" ↔ ¬v > 1.15)) ∧
    classification 1.15 = "N" := by
  constructor
  · intro v
    by_cases h : v > CLASSIFIER_CUTOFF
    · have hc : classification v = "Y" := by simp [classification, h]
      have h15 : v > 1.15 := h
      rw [hc]
      exact ⟨⟨fun _ => h15, fun _ => rfl⟩,
        ⟨fun hN => absurd hN (by decide), fun hn => absurd h15 hn⟩⟩
    · have hc : classification v = "N" := by simp [classification, h]
      have h15 : ¬v > 1.15 := h
      rw [hc]
      exact ⟨⟨fun hY => absurd hY (by decide), fun hy => absurd hy h15⟩,
        ⟨fun _ => h15, fun _ => rfl⟩⟩
  · have hb : ¬(1.15 : ℚ) > CLASSIFIER_CUTOFF := by norm_num [CLASSIFIER_CUTOFF]
    simp [classification, hb]

/-- C10: `add_to_classifier` ignores both of its arguments and returns
`(None, None)` for every input pair `(X, Y)`; as a pure function of its
arguments it has no side effects. -/
theorem C10_add_to_classifier_returns_none {α β : Type} :
    ∀ (X : α) (Y : β), add_to_classifier X Y = (none, none) :=
  fun _ _ => rfl

/-- C6: the program is deterministic — two runs over unchanged input
directories, with the same pivot tables produced upstream, give the same
outcome (the same written bytes at the same path, the same exit code,
the same printed lines). -/
theorem C6_deterministic (fs1 fs2 : FileSystem) (root : String)
    (tables : List (String × PivotTable)) (h : ∀ p, fs1 p = fs2 p) :
    runMain fs1 root tables = runMain fs2 root tables := by
  have hfs : fs1 = fs2 := funext h
  rw [hfs]

/-- Witness for C6 at the concrete scenario. -/
theorem C6_witness : runMain exFS ("res" ) exTables = runMain exFS ("res" ) exTables :=
  C6_deterministic exFS exFS ("res" ) exTables (fun _ => rfl)

/-- The run over the concrete scenario reaches `exOkState` (the Rat
literals are normalized with `norm_num`, since scientific literals do not
reduce definitionally). -/
theorem exRun_ok : runSvm exFS ("res" ) exTables = .ok exOkState := by
  have hY : classification 1.30 = "Y" := by
    unfold classification CLASSIFIER_CUTOFF
    rw [if_pos (by norm_num)]
  have hN : classification 1.00 = "N" := by
    unfold classification CLASSIFIER_CUTOFF
    rw [if_neg (by norm_num)]
  simp [runSvm, selectedCells, exTables, tableCells, TO_BUILD, runCells, processCell,
    exFS, cellPath, hY, hN, dfConcat, dfWB, dfWC, initState, emptyDF, exOkState,
    List.replicate]

/-- C2: every included (completed) pair contributes every row of its
feature-matrix file to the output matrix, carrying that pair's own label
in column `Y`: the labeled rows of the final matrix are exactly the
concatenation, over the included cells in visiting order, of each cell's
feature rows with that cell's label appended. -/
theorem C2_rows_carry_pair_label (fs : FileSystem) (root : String)
    (tables : List (String × PivotTable)) (s : SvmState)
    (h : runSvm fs root tables = .ok s) :
    (addLabelColumn s.X s.Y).rows =
      (includedCells fs root (selectedCells tables)).flatMap (labeledRowsOf fs root) := by
  have spec := runCells_ok_spec fs root (selectedCells tables) initState s h
  have hX : s.X.rows =
      (includedCells fs root (selectedCells tables)).flatMap (rowsOf fs root) := by
    simpa [initState, emptyDF] using spec.1
  have hY : s.Y =
      (includedCells fs root (selectedCells tables)).flatMap (labelsOf fs root) := by
    simpa [initState] using spec.2
  show (s.X.rows.zip s.Y).map (fun rl => rl.1 ++ [rl.2]) = _
  rw [hX, hY, zip_flatMap_labeled]

/-- Witness for C2 at the concrete scenario: the completed 4-row pair
with value 1.30 contributes 4 rows labeled `Y`, and the completed 3-row
pair with value 1.00 contributes 3 rows labeled `N`. -/
theorem C2_witness :
    (addLabelColumn exOkState.X exOkState.Y).rows =
      (includedCells exFS ("res" ) (selectedCells exTables)).flatMap
        (labeledRowsOf exFS ("res" )) :=
  C2_rows_carry_pair_label exFS ("res" ) exTables exOkState exRun_ok

/-- C3: when a visited pair directory carries the `completed` marker but
lacks the feature-matrix file, the process terminates with exit code 1
before writing any output, and the output file is neither created nor
overwritten. -/
theorem C3_missing_matrix_aborts (fs : FileSystem) (root : String)
    (tables : List (String × PivotTable)) (c : Cell)
    (hmem : c ∈ selectedCells tables)
    (hcomp : (fs (cellPath root c)).completed = true)
    (hmat : (fs (cellPath root c)).matrix = none) :
    (runMain fs root tables).exitCode = 1 ∧ (runMain fs root tables).written = none := by
  obtain ⟨e, he⟩ := runCells_error_of_bad fs root (selectedCells tables) initState
    ⟨c, hmem, hcomp, hmat⟩
  constructor <;> simp [runMain, runSvm, he]

/-- Witness for C3: the (wA, wB) pair directory is marked completed but
has no matrix file. -/
theorem C3_witness :
    (runMain exFSbad ("res" ) exTables).exitCode = 1 ∧
      (runMain exFSbad ("res" ) exTables).written = none :=
  C3_missing_matrix_aborts exFSbad ("res" ) exTables ⟨"L3-SMT", "wA", "wB", 1.30⟩
    (List.Mem.head _) rfl rfl

/-- C4: a pair directory lacking the `completed` marker is excluded from
the combined matrix — processing its cell leaves `X` and `Y` unchanged
and only prints the exclusion message (so it contributes zero rows and
zero label entries and is not an error), and the cell is not among the
included cells, regardless of whether a feature-matrix file exists. -/
theorem C4_unfinished_excluded (fs : FileSystem) (root : String)
    (tables : List (String × PivotTable)) (c : Cell) (s : SvmState)
    (h : (fs (cellPath root c)).completed = false) :
    processCell fs root c s =
      .ok ⟨s.X, s.Y, s.log ++ ["Exclude unfinished directory " ++ cellPath root c]⟩ ∧
    c ∉ includedCells fs root (selectedCells tables) := by
  constructor
  · simp [processCell, h]
  · intro hmem
    have hfil := (List.mem_filter.mp hmem).2
    simp [included, h] at hfil

/-- Witness for C4: no directory of `exFSnone` is completed. -/
theorem C4_witness :
    processCell exFSnone ("res" ) ⟨"L3-SMT", "wA", "wB", 1.30⟩ initState =
      .ok ⟨initState.X, initState.Y, initState.log ++
        ["Exclude unfinished directory " ++
          cellPath ("res" ) ⟨"L3-SMT", "wA", "wB", 1.30⟩]⟩ ∧
    (⟨"L3-SMT", "wA", "wB", 1.30⟩ : Cell) ∉
      includedCells exFSnone ("res" ) (selectedCells exTables) :=
  C4_unfinished_excluded exFSnone ("res" ) exTables ⟨"L3-SMT", "wA", "wB", 1.30⟩
    initState rfl

/-- C5: on normal completion the total row count of the combined matrix
equals the sum, over the included pairs, of the row counts of their
feature-matrix files, and the label series has the same length; moreover
the equality of the two accumulator lengths is preserved by every
per-pair append step (any loop segment run from any state satisfying
it). -/
theorem C5_row_count_invariant (fs : FileSystem) (root : String)
    (tables : List (String × PivotTable)) (s : SvmState)
    (h : runSvm fs root tables = .ok s) :
    s.X.rows.length =
      ((includedCells fs root (selectedCells tables)).map
        (fun c => (cellMatrix fs root c).rows.length)).sum ∧
    s.Y.length = s.X.rows.length ∧
    (∀ (cells : List Cell) (t t' : SvmState), runCells fs root cells t = .ok t' →
      t.X.rows.length = t.Y.length → t'.X.rows.length = t'.Y.length) := by
  have spec := runCells_ok_spec fs root (selectedCells tables) initState s h
  have hX : s.X.rows =
      (includedCells fs root (selectedCells tables)).flatMap (rowsOf fs root) := by
    simpa [initState, emptyDF] using spec.1
  have hY : s.Y =
      (includedCells fs root (selectedCells tables)).flatMap (labelsOf fs root) := by
    simpa [initState] using spec.2
  have hsum : ∀ (L : List Cell),
      (L.map (List.length ∘ labelsOf fs root)).sum =
        (L.map (List.length ∘ rowsOf fs root)).sum := by
    intro L
    congr 1
    apply List.map_congr_left
    intro c _
    simp [labelsOf, rowsOf]
  refine ⟨?_, ?_, ?_⟩
  · rw [hX, List.length_flatMap]
    rfl
  · rw [hX, hY, List.length_flatMap, List.length_flatMap, hsum]
  · intro cells t t' ht hlen
    have spec2 := runCells_ok_spec fs root cells t t' ht
    rw [spec2.1, spec2.2, List.length_append, List.length_append, hlen,
      List.length_flatMap, List.length_flatMap, hsum]

/-- Witness for C5 at the concrete scenario (4 + 3 = 7 rows and 7
labels). -/
theorem C5_witness :
    exOkState.X.rows.length =
      ((includedCells exFS ("res" ) (selectedCells exTables)).map
        (fun c => (cellMatrix exFS ("res" ) c).rows.length)).sum ∧
    exOkState.Y.length = exOkState.X.rows.length ∧
    (∀ (cells : List Cell) (t t' : SvmState),
      runCells exFS ("res" ) cells t = .ok t' →
      t.X.rows.length = t.Y.length → t'.X.rows.length = t'.Y.length) :=
  C5_row_count_invariant exFS ("res" ) exTables exOkState exRun_ok

/-- C7: pairs are visited in pivot-table row-major order — the selected
cells enumerate, for each selected configuration, the table rows `A` in
order and within each row the columns `B` in table order — and the
combined matrix is exactly the concatenation of the included pairs' row
batches in this visiting order. -/
theorem C7_visit_order (fs : FileSystem) (root : String)
    (tables : List (String × PivotTable)) (s : SvmState)
    (h : runSvm fs root tables = .ok s) :
    s.X.rows = (includedCells fs root (selectedCells tables)).flatMap (rowsOf fs root) ∧
    selectedCells tables =
      tables.flatMap (fun ct =>
        if ct.1 ∈ TO_BUILD then
          ct.2.rows.flatMap (fun r =>
            (r.2.zip ct.2.cols).map (fun p => ⟨ct.1, r.1, p.2, p.1⟩))
        else []) := by
  refine ⟨?_, rfl⟩
  have spec := runCells_ok_spec fs root (selectedCells tables) initState s h
  simpa [initState, emptyDF] using spec.1

/-- Witness for C7 at the concrete scenario. -/
theorem C7_witness :
    exOkState.X.rows =
      (includedCells exFS ("res" ) (selectedCells exTables)).flatMap
        (rowsOf exFS ("res" )) ∧
    selectedCells exTables =
      exTables.flatMap (fun ct =>
        if ct.1 ∈ TO_BUILD then
          ct.2.rows.flatMap (fun r =>
            (r.2.zip ct.2.cols).map (fun p => ⟨ct.1, r.1, p.2, p.1⟩))
        else []) :=
  C7_visit_order exFS ("res" ) exTables exOkState exRun_ok

/-- C8: on normal completion the combined matrix is written to the fixed
filename `wekka_xy_L3-SMT_uncore_shared.csv` directly under the results
root, serialized with a header row and without a row-index column, the
label column named `Y` is last in the header and every row's label value
is `"Y"` or `"N"`, and the shape (row count, column count) is printed. -/
theorem C8_output_format (fs : FileSystem) (root : String)
    (tables : List (String × PivotTable)) (s : SvmState)
    (h : runSvm fs root tables = .ok s) :
    runMain fs root tables =
      ⟨0, some (root ++ "/wekka_xy_L3-SMT_uncore_shared.csv",
          to_csv_noindex (addLabelColumn s.X s.Y)),
        some ((addLabelColumn s.X s.Y).rows.length,
          (addLabelColumn s.X s.Y).header.length),
        s.log⟩ ∧
    (addLabelColumn s.X s.Y).header = s.X.header ++ ["Y"] ∧
    to_csv_noindex (addLabelColumn s.X s.Y) =
      String.intercalate ("\n" )
        (csvLine (addLabelColumn s.X s.Y).header ::
          (addLabelColumn s.X s.Y).rows.map csvLine) ++ "\n" ∧
    (∀ r ∈ (addLabelColumn s.X s.Y).rows,
      ∃ fr l, r = fr ++ [l] ∧ (l = "Y" ∨ l = "N")) := by
  refine ⟨?_, rfl, rfl, ?_⟩
  · simp only [runMain, h, OUTPUT_FILE]
  · intro r hr
    simp only [addLabelColumn] at hr
    obtain ⟨⟨row, l⟩, hzip, hrl⟩ := List.mem_map.mp hr
    refine ⟨row, l, hrl.symm, ?_⟩
    have hl : l ∈ s.Y := (List.of_mem_zip hzip).2
    have spec := runCells_ok_spec fs root (selectedCells tables) initState s h
    have hY : s.Y =
        (includedCells fs root (selectedCells tables)).flatMap (labelsOf fs root) := by
      simpa [initState] using spec.2
    exact mem_labels_YN fs root _ l (hY ▸ hl)

/-- Witness for C8 at the concrete scenario. -/
theorem C8_witness :
    runMain exFS ("res" ) exTables =
      ⟨0, some (("res" ) ++ "/wekka_xy_L3-SMT_uncore_shared.csv",
          to_csv_noindex (addLabelColumn exOkState.X exOkState.Y)),
        some ((addLabelColumn exOkState.X exOkState.Y).rows.length,
          (addLabelColumn exOkState.X exOkState.Y).header.length),
        exOkState.log⟩ ∧
    (addLabelColumn exOkState.X exOkState.Y).header = exOkState.X.header ++ ["Y"] ∧
    to_csv_noindex (addLabelColumn exOkState.X exOkState.Y) =
      String.intercalate ("\n" )
        (csvLine (addLabelColumn exOkState.X exOkState.Y).header ::
          (addLabelColumn exOkState.X exOkState.Y).rows.map csvLine) ++ "\n" ∧
    (∀ r ∈ (addLabelColumn exOkState.X exOkState.Y).rows,
      ∃ fr l, r = fr ++ [l] ∧ (l = "Y" ∨ l = "N")) :=
  C8_output_format exFS ("res" ) exTables exOkState exRun_ok

/-- C9: when no pair is included at all — every visited pair directory
lacks the `completed` marker, which in particular covers the case where
no configuration is selected — the script completes normally with exit
code 0 and writes the output file, which then contains only the `Y`
column header and zero data rows. -/
theorem C9_no_included_pairs (fs : FileSystem) (root : String)
    (tables : List (String × PivotTable))
    (h : ∀ c ∈ selectedCells tables, (fs (cellPath root c)).completed = false) :
    ∃ lg, runMain fs root tables = ⟨0, some (OUTPUT_FILE root, "Y\n"), some (0, 1), lg⟩ := by
  obtain ⟨lg, hok⟩ := runCells_all_unfinished fs root (selectedCells tables) initState h
  refine ⟨lg, ?_⟩
  have hok2 : runSvm fs root tables = .ok ⟨emptyDF, [], lg⟩ := by
    simpa [runSvm, initState] using hok
  simp only [runMain, hok2]
  rfl

/-- Witness for C9: a filesystem with no `completed` marker anywhere. -/
theorem C9_witness :
    ∃ lg, runMain exFSnone ("res" ) exTables =
      ⟨0, some (OUTPUT_FILE ("res" ), "Y\n"), some (0, 1), lg⟩ :=
  C9_no_included_pairs exFSnone ("res" ) exTables (fun _ _ => rfl)

end AutoperfSvm
